import Mathlib

/-!
Shallow embedding of the interactive console-automation engine of
`iosxr_pexpect.py` (class `IosxrPexpect`), together with the IP-address
probing helpers of `NodeSession` and the session registry's `close`.

Modelling conventions:
* Wall-clock time is a natural number of seconds.  The only operations of
  the source that consume time are `time.sleep(t)` calls (inside
  `read_data` and after answering a `Username:` prompt); each advances the
  clock by exactly `t`.  `time.time()` reads the clock.
* The transport (a pexpect spawn) is scripted: a `List RawRead` gives, for
  each successive `read_data` call, what `read_nonblocking` produced —
  a chunk of bytes, a `pexpect.TIMEOUT` (nothing available), or
  `pexpect.EOF`.  When the script is exhausted the run stops with the
  marker `outOfScript` (no claim is settled on such truncated runs).
* `re.search(pat, data, re.MULTILINE)` applied to caller-supplied pattern
  strings (in `wait` / `repeat_until`) is abstracted as a parameter
  `M : String → String → Bool` (pattern, data ↦ matched?).  The fixed
  regexes of the login state machine are modelled concretely by a tiny
  matcher (`research`) over literal characters, `.` and `.*`, which is
  exactly the pattern language those regexes use.
* Raised exceptions become explicit outcome constructors carrying the
  formatted message text of the source.
-/

/-- What the pexpect transport yields for one `read_nonblocking` call. -/
inductive RawRead where
  | bytes (s : String)
  | timedOut
  | eof
deriving DecidableEq

/-- Result of `Node.read_data`: either data (possibly empty, on a
`pexpect.TIMEOUT`) or the raised EOF exception. -/
inductive ReadResult where
  | data (s : String)
  | eofErr (msg : String)
deriving DecidableEq

/-- `Node.read_data` (iosxr_pexpect.py lines 269-298): `time.sleep(timeout)`,
then `read_nonblocking(size=10000, timeout=0)`; `pexpect.EOF` is re-raised as
`Exception("%s EOF on connection for: %s" % (session.name, debug))`, a
`pexpect.TIMEOUT` yields the empty string.  Returns (new clock, result). -/
def read_data (sessionName debug : String) (timeout : Nat) (clock : Nat)
    (r : RawRead) : Nat × ReadResult :=
  let now := clock + timeout
  match r with
  | RawRead.bytes s => (now, ReadResult.data s)
  | RawRead.timedOut => (now, ReadResult.data "")
  | RawRead.eof =>
      (now, ReadResult.eofErr (sessionName ++ " EOF on connection for: " ++ debug))

/-- Outcome of `Node.wait`. -/
inductive WaitOutcome where
  | matched (d : String)
  | timedOutErr (msg : String)
  | eofErr (msg : String)
  | outOfScript
deriving DecidableEq

/-- A complete run of `Node.wait`: outcome, the clock times at which the
liveness nudge (an empty `send`) fired, the unconsumed transport script,
and the final clock. -/
structure WaitRun where
  outcome : WaitOutcome
  nudges : List Nat
  rest : List RawRead
  finalClock : Nat
deriving DecidableEq

/-- Loop body of `Node.wait` (iosxr_pexpect.py lines 665-704).  Arguments
after the fixed ones: remaining script, current clock, `time_pressed_enter`.
The loop runs while `time.time() - time_started < maxtime`; each iteration
reads one increment, tests the pattern against that increment, and nudges
with an empty line when more than 10 seconds passed since
`time_pressed_enter` (which only nudges reset). -/
def wait_go (M : String → String → Bool) (sessionName wait_txt debug : String)
    (timeout maxtime time_started : Nat) :
    List RawRead → Nat → Nat → WaitRun
  | [], clock, _ =>
    if clock - time_started < maxtime then
      { outcome := WaitOutcome.outOfScript, nudges := [], rest := [], finalClock := clock }
    else
      { outcome := WaitOutcome.timedOutErr
          (sessionName ++ " timed out (" ++ debug ++ ") trying to match " ++ wait_txt),
        nudges := [], rest := [], finalClock := clock }
  | r :: rest, clock, time_pressed_enter =>
    if clock - time_started < maxtime then
      match read_data sessionName debug timeout clock r with
      | (now, ReadResult.eofErr msg) =>
        { outcome := WaitOutcome.eofErr msg, nudges := [], rest := rest, finalClock := now }
      | (now, ReadResult.data d) =>
        if M wait_txt d then
          { outcome := WaitOutcome.matched d, nudges := [], rest := rest, finalClock := now }
        else if now - time_pressed_enter > 10 then
          let res := wait_go M sessionName wait_txt debug timeout maxtime time_started
            rest now now
          { outcome := res.outcome, nudges := now :: res.nudges,
            rest := res.rest, finalClock := res.finalClock }
        else
          wait_go M sessionName wait_txt debug timeout maxtime time_started
            rest now time_pressed_enter
    else
      { outcome := WaitOutcome.timedOutErr
          (sessionName ++ " timed out (" ++ debug ++ ") trying to match " ++ wait_txt),
        nudges := [], rest := r :: rest, finalClock := clock }

/-- `Node.wait`: records `time_started = time.time()` at entry (line 677) and
initialises `time_pressed_enter` to the same instant (line 678). -/
def wait (M : String → String → Bool) (sessionName wait_txt debug : String)
    (timeout maxtime : Nat) (script : List RawRead) (clock : Nat) : WaitRun :=
  wait_go M sessionName wait_txt debug timeout maxtime clock script clock clock

/-- Outcome of `Node.repeat_until`. -/
inductive RepeatOutcome where
  | matched (d : String)
  | timedOutErr (msg : String)
  | eofErr (msg : String)
  | outOfScript
deriving DecidableEq

/-- A complete run of `Node.repeat_until`: outcome, number of probe sends,
unconsumed script, final clock. -/
structure RepeatRun where
  outcome : RepeatOutcome
  sendCount : Nat
  rest : List RawRead
  finalClock : Nat
deriving DecidableEq

/-- Loop body of `Node.repeat_until` (iosxr_pexpect.py lines 594-640): while
`time.time() - time_started < maxtime`, send `send_txt`, read one increment,
return it on `re.search(match_txt, data)`.  On deadline exhaustion the source
raises `Exception("%s timed out (%s) trying to match %s" % (session.name,
debug, send_txt))` — note that it formats `send_txt`, not `match_txt`, into
the message. -/
def repeat_until_go (M : String → String → Bool)
    (sessionName send_txt match_txt debug : String)
    (timeout maxtime time_started : Nat) :
    List RawRead → Nat → Nat → RepeatRun
  | [], clock, sendCount =>
    if clock - time_started < maxtime then
      { outcome := RepeatOutcome.outOfScript, sendCount := sendCount,
        rest := [], finalClock := clock }
    else
      { outcome := RepeatOutcome.timedOutErr
          (sessionName ++ " timed out (" ++ debug ++ ") trying to match " ++ send_txt),
        sendCount := sendCount, rest := [], finalClock := clock }
  | r :: rest, clock, sendCount =>
    if clock - time_started < maxtime then
      match read_data sessionName debug timeout clock r with
      | (now, ReadResult.eofErr msg) =>
        { outcome := RepeatOutcome.eofErr msg, sendCount := sendCount + 1,
          rest := rest, finalClock := now }
      | (now, ReadResult.data d) =>
        if M match_txt d then
          { outcome := RepeatOutcome.matched d, sendCount := sendCount + 1,
            rest := rest, finalClock := now }
        else
          repeat_until_go M sessionName send_txt match_txt debug timeout maxtime
            time_started rest now (sendCount + 1)
    else
      { outcome := RepeatOutcome.timedOutErr
          (sessionName ++ " timed out (" ++ debug ++ ") trying to match " ++ send_txt),
        sendCount := sendCount, rest := r :: rest, finalClock := clock }

/-- `Node.repeat_until`: fresh `time_started = time.time()` at entry (line
609), probe counter starting at 0. -/
def repeat_until (M : String → String → Bool)
    (sessionName send_txt match_txt debug : String)
    (timeout maxtime : Nat) (script : List RawRead) (clock : Nat) : RepeatRun :=
  repeat_until_go M sessionName send_txt match_txt debug timeout maxtime clock
    script clock 0

/-- Scan used by `containsStr`: does `pat` occur starting at some position
of the subject? -/
def listContains (pat : List Char) : List Char → Bool
  | [] => pat.isEmpty
  | c :: cs => pat.isPrefixOf (c :: cs) || listContains pat cs

/-- Substring matching: what `re.search(pat, data, re.MULTILINE)` computes
when `pat` is a plain literal (no metacharacters), as in the concrete
patterns the claims instantiate. -/
def containsStr (pat s : String) : Bool :=
  listContains pat.toList s.toList

/-- Token of the tiny regex language that the login state machine's fixed
patterns use: a literal character, `.` (any character but newline), or
`.*`. -/
inductive RTok where
  | lit (c : Char)
  | dot
  | dotStar
deriving DecidableEq

/-- Can the token list match the empty subject?  Only a sequence of `.*`
tokens can. -/
def rnullable : List RTok → Bool
  | [] => true
  | RTok.dotStar :: ps => rnullable ps
  | RTok.lit _ :: _ => false
  | RTok.dot :: _ => false

/-- Match the token list against a subject whose head is `d`; `next ps`
continues the match of `ps` against the subject's tail.  `.` and `.*` do
not cross a newline, as in Python `re` without `DOTALL`. -/
def rmatchCons (d : Char) (next : List RTok → Bool) : List RTok → Bool
  | [] => true
  | RTok.lit c :: ps => c == d && next ps
  | RTok.dot :: ps => d != '\n' && next ps
  | RTok.dotStar :: ps =>
    rmatchCons d next ps || (d != '\n' && next (RTok.dotStar :: ps))

/-- Match the token list against the subject, anchored at its head (the
match may end before the subject does). -/
def rmatchList : List Char → List RTok → Bool
  | [], ps => rnullable ps
  | d :: ds, ps => rmatchCons d (rmatchList ds) ps

/-- Does the token list match some prefix of the subject (anchored at its
head)? -/
def rmatchHere (ps : List RTok) (ds : List Char) : Bool :=
  rmatchList ds ps

/-- Match the token list at any start position (the scan of `re.search`). -/
def researchAux (ps : List RTok) : List Char → Bool
  | [] => rmatchHere ps []
  | d :: ds => rmatchHere ps (d :: ds) || researchAux ps ds

/-- Boolean `re.search(pattern, s)` for patterns in the `RTok` language. -/
def research (ps : List RTok) (s : String) : Bool :=
  researchAux ps s.toList

/-- A pattern made only of literal characters. -/
def litPat (s : String) : List RTok :=
  s.toList.map RTok.lit

/-- Pattern of line 357: `"Press RETURN to get started"`. -/
def patPressReturn : List RTok := litPat "Press RETURN to get started"

/-- Pattern of line 372: `"Enter root-system username:"`. -/
def patRootUsername : List RTok := litPat "Enter root-system username:"

/-- Pattern of line 388: `"Enter secret:"`. -/
def patEnterSecret : List RTok := litPat "Enter secret:"

/-- Pattern of line 404: `"Enter secret again"`. -/
def patEnterSecretAgain : List RTok := litPat "Enter secret again"

/-- Pattern of line 421: `"Username:"`. -/
def patUsername : List RTok := litPat "Username:"

/-- Pattern of line 456: `"Password:"`. -/
def patPassword : List RTok := litPat "Password:"

/-- Pattern of line 472: `"ios.config.*#"`. -/
def patConfMode : List RTok :=
  litPat "ios" ++ [RTok.dot] ++ litPat "config" ++ [RTok.dotStar] ++ litPat "#"

/-- Pattern of line 488: `"Uncommitted changes found"`. -/
def patUncommitted : List RTok := litPat "Uncommitted changes found"

/-- Pattern of line 500: `"ios#"`. -/
def patIosPrompt : List RTok := litPat "ios#"

/-- Pattern of line 505: `"RP.*/CPU.*#"`. -/
def patRpCpuPrompt : List RTok :=
  litPat "RP" ++ [RTok.dotStar] ++ litPat "/CPU" ++ [RTok.dotStar] ++ litPat "#"

/-- `string.split(data, '\n')`: split into lines at every newline (the empty
input yields one empty line, a trailing newline yields a final empty
line). -/
def splitLines : List Char → List String
  | [] => [""]
  | c :: cs =>
    if c = '\n' then "" :: splitLines cs
    else
      match splitLines cs with
      | [] => [String.mk [c]]
      | l :: ls => String.mk (c :: l.toList) :: ls

/-- Lines 342-349 of `wait_xr_login`: `lines = string.split(data, '\n')`,
then walk `reversed(lines)` and keep the first non-empty line (the loop
variable keeps the value `lines[0]`, the empty string, when every line is
empty). -/
def lastNonEmptyLine (chunk : String) : String :=
  (((splitLines chunk.toList).reverse.find? (fun l => l != ""))).getD ""

/-- Mutable state of the `wait_xr_login` loop (lines 303-517): the clock,
`time_started` (line 324), `time_pressed_enter` (line 329, initially 0),
`time_seen_username_prompt` (line 311, initially 0), and — instrumentation —
the list of texts sent so far, most recent first. -/
structure LoginSt where
  clock : Nat
  time_started : Nat
  time_pressed_enter : Nat
  time_seen_username_prompt : Nat
  sendsRev : List String
deriving DecidableEq

/-- Result of one iteration of the `wait_xr_login` loop. -/
inductive LoginStep where
  | next (st : LoginSt)
  | authenticated (sendsRev : List String) (finalClock : Nat)
  | eofError (msg : String) (sendsRev : List String) (finalClock : Nat)
deriving DecidableEq

/-- The checks an iteration falls through to after the `Username:` block
(lines 456-515): `Password:`, conf-t prompt, uncommitted changes, the two
success prompts, and finally the 5-second keepalive enter of line 513.
`d` is the last non-empty line, `now` the clock after the read, `tpe` the
(possibly refreshed) `time_pressed_enter`. -/
def login_tail (userpass d : String) (now tpe : Nat) (st : LoginSt) : LoginStep :=
  if research patPassword d then
    LoginStep.next
      { st with
        clock := now,
        time_pressed_enter := tpe,
        sendsRev := userpass :: st.sendsRev }
  else if research patConfMode d then
    LoginStep.next
      { st with
        clock := now,
        time_pressed_enter := tpe,
        sendsRev := "exit" :: st.sendsRev }
  else if research patUncommitted d then
    LoginStep.next
      { st with
        clock := now,
        time_pressed_enter := tpe,
        sendsRev := "no" :: st.sendsRev }
  else if research patIosPrompt d then
    LoginStep.authenticated st.sendsRev now
  else if research patRpCpuPrompt d then
    LoginStep.authenticated st.sendsRev now
  else if now - tpe > 5 then
    LoginStep.next
      { st with
        clock := now,
        time_pressed_enter := now,
        sendsRev := "" :: st.sendsRev }
  else
    LoginStep.next { st with clock := now, time_pressed_enter := tpe }

/-- One iteration of the `wait_xr_login` loop (lines 330-515): read one
increment with `timeout=5`, take the last non-empty line `d` of the chunk
(refreshing `time_pressed_enter` when output appeared, lines 343-349), then
run the ordered prompt checks.  A `Username:` prompt seen while
`time_seen_username_prompt` is non-zero and less than 5 seconds old is
answered with an empty line and falls through to the later checks (lines
427-433, no `continue`); otherwise the username is sent,
`time_seen_username_prompt` is set and the loop sleeps one second (lines
440-451). -/
def login_step (sessionName username userpass : String) (r : RawRead)
    (st : LoginSt) : LoginStep :=
  match read_data sessionName "Keep waiting for XR login prompt" 5 st.clock r with
  | (now, ReadResult.eofErr msg) => LoginStep.eofError msg st.sendsRev now
  | (now, ReadResult.data chunk) =>
    let d := lastNonEmptyLine chunk
    let tpe := if d != "" then now else st.time_pressed_enter
    if research patPressReturn d then
      LoginStep.next
        { st with
          clock := now,
          time_pressed_enter := tpe,
          sendsRev := "" :: st.sendsRev }
    else if research patRootUsername d then
      LoginStep.next
        { st with
          clock := now,
          time_pressed_enter := tpe,
          sendsRev := username :: st.sendsRev }
    else if research patEnterSecret d then
      LoginStep.next
        { st with
          clock := now,
          time_pressed_enter := tpe,
          sendsRev := userpass :: st.sendsRev }
    else if research patEnterSecretAgain d then
      LoginStep.next
        { st with
          clock := now,
          time_pressed_enter := tpe,
          sendsRev := userpass :: st.sendsRev }
    else if research patUsername d then
      if st.time_seen_username_prompt ≠ 0 ∧
          now - st.time_seen_username_prompt < 5 then
        login_tail userpass d now tpe { st with sendsRev := "" :: st.sendsRev }
      else
        LoginStep.next
          { st with
            clock := now + 1,
            time_pressed_enter := tpe,
            time_seen_username_prompt := now,
            sendsRev := username :: st.sendsRev }
    else
      login_tail userpass d now tpe st

/-- Outcome of a `wait_xr_login` run. -/
inductive LoginOutcome where
  | success
  | eofErr (msg : String)
  | timedOutErr (msg : String)
  | outOfScript
deriving DecidableEq

/-- A complete `wait_xr_login` run: outcome, all sends in order, unconsumed
script, final clock. -/
structure LoginRun where
  outcome : LoginOutcome
  sends : List String
  rest : List RawRead
  finalClock : Nat
deriving DecidableEq

/-- The `wait_xr_login` loop: run iterations while
`time.time() - time_started < maxtime` (line 330); on expiry the source
raises `Exception("%s timed out trying to login to XR" % session.name)`. -/
def wait_xr_login_go (sessionName username userpass : String) (maxtime : Nat) :
    List RawRead → LoginSt → LoginRun
  | [], st =>
    if st.clock - st.time_started < maxtime then
      { outcome := LoginOutcome.outOfScript, sends := st.sendsRev.reverse,
        rest := [], finalClock := st.clock }
    else
      { outcome := LoginOutcome.timedOutErr
          (sessionName ++ " timed out trying to login to XR"),
        sends := st.sendsRev.reverse, rest := [], finalClock := st.clock }
  | r :: rest, st =>
    if st.clock - st.time_started < maxtime then
      match login_step sessionName username userpass r st with
      | LoginStep.next st' =>
        wait_xr_login_go sessionName username userpass maxtime rest st'
      | LoginStep.authenticated sendsRev fc =>
        { outcome := LoginOutcome.success, sends := sendsRev.reverse,
          rest := rest, finalClock := fc }
      | LoginStep.eofError msg sendsRev fc =>
        { outcome := LoginOutcome.eofErr msg, sends := sendsRev.reverse,
          rest := rest, finalClock := fc }
    else
      { outcome := LoginOutcome.timedOutErr
          (sessionName ++ " timed out trying to login to XR"),
        sends := st.sendsRev.reverse, rest := r :: rest, finalClock := st.clock }

/-- `Node.wait_xr_login`: `time_seen_username_prompt = 0` (line 311),
`time_started = time.time()` (line 324), `time_pressed_enter = 0`
(line 329, forcing an immediate keepalive enter on a silent console). -/
def wait_xr_login (sessionName username userpass : String) (maxtime : Nat)
    (script : List RawRead) (clock : Nat) : LoginRun :=
  wait_xr_login_go sessionName username userpass maxtime script
    { clock := clock, time_started := clock, time_pressed_enter := 0,
      time_seen_username_prompt := 0, sendsRev := [] }

/-- The scripted boot/login transcript of the specification's scenario:
banner, root-system username prompt, secret prompt, secret confirmation
prompt, then the XR shell prompt. -/
def loginScript : List RawRead :=
  [RawRead.bytes "Some boot output\nPress RETURN to get started.\n",
   RawRead.bytes "Enter root-system username:\n",
   RawRead.bytes "Enter secret:\n",
   RawRead.bytes "Enter secret again:\n",
   RawRead.bytes "RP/0/RP0/CPU0:ios#"]

/-- One owned session's transport as `Node.close` sees it: whether the
underlying pty is already closed, and how many times `close` has been
invoked on it (instrumentation). -/
structure MSession where
  closed : Bool
  closeCalls : Nat
deriving DecidableEq

/-- `self.ttys` of `Node` (line 206): the four serial-port names. -/
def ttys : List String := ["xr", "aux", "admin", "host"]

/-- `session.pexpect.close(force=True)`.  Modelled from pexpect (external
dependency of the source): `spawn.close` is guarded by `if not self.closed`,
so on an already-closed transport it is an error-free no-op; we additionally
count the invocation. -/
def pexpect_close (s : MSession) : MSession :=
  { closed := true, closeCalls := s.closeCalls + 1 }

/-- Result of `Node.close`: the raised exception, if any, and the sessions
after the loop (those not reached keep their state). -/
structure CloseRun where
  err : Option String
  sessions : List MSession
deriving DecidableEq

/-- Loop of `Node.close` (lines 709-719): for each session, look up
`self.ttys[index]` (an `IndexError` if `index` is out of range — the lookup
happens before the close call), then `session.pexpect.close(force=True)`,
incrementing `index`. -/
def node_close_go : List MSession → Nat → List MSession → CloseRun
  | [], _, acc => { err := none, sessions := acc.reverse }
  | s :: rest, index, acc =>
    if index < ttys.length then
      node_close_go rest (index + 1) (pexpect_close s :: acc)
    else
      { err := some "IndexError: list index out of range",
        sessions := acc.reverse ++ s :: rest }

/-- `Node.close`: iterate over `self.sessions` with `index = 0`. -/
def node_close (sessions : List MSession) : CloseRun :=
  node_close_go sessions 0 []

/-- Python `\S` negated: the whitespace class of `re` (space, tab, newline,
carriage return, vertical tab, form feed). -/
def pyIsSpace (c : Char) : Bool :=
  c == ' ' || c == '\t' || c == '\n' || c == '\r' || c == '\x0b' || c == '\x0c'

/-- The literal part of the regex of line 140:
`r'Internet address is (\S+)\/(\S+)'`. -/
def iaLiteral : List Char := "Internet address is ".toList

/-- Longest (possibly empty) prefix `a` of the input such that the input is
`a ++ '/' :: b` with `b` nonempty — the split the greedy, backtracking
`(\S+)\/(\S+)` picks inside a run of non-space characters. -/
def slashSplitAux : List Char → Option (List Char)
  | [] => none
  | c :: cs =>
    match slashSplitAux cs with
    | some a => some (c :: a)
    | none => if c == '/' && !cs.isEmpty then some [] else none

/-- Group 1 of `(\S+)\/(\S+)` within a run of non-space characters: the
longest nonempty prefix before a `/` that still leaves a nonempty tail. -/
def slashSplit (run : List Char) : Option (List Char) :=
  match slashSplitAux run with
  | some a => if a.isEmpty then none else some a
  | none => none

/-- `re.search(r'Internet address is (\S+)\/(\S+)', output)` followed by
`.group(1)`: scan every start position; where the literal matches, the two
`\S+` groups live inside the maximal non-space run after it; if the run
admits no valid split the scan continues (as `re.search` does). -/
def findIA : List Char → Option String
  | [] => none
  | c :: cs =>
    if iaLiteral.isPrefixOf (c :: cs) then
      match slashSplit (((c :: cs).drop iaLiteral.length).takeWhile
          (fun ch => !pyIsSpace ch)) with
      | some a => some (String.mk a)
      | none => findIA cs
    else
      findIA cs

/-- Lines 140-145 of `NodeSession.get_cisco_ip_address`: extract the address
captured before the `/`, or `None` (after a log message, no exception). -/
def cisco_ip_of_output (output : String) : Option String :=
  findIA output.toList

/-- Outcome of one `get_cisco_ip_address` call. -/
inductive GetIpOutcome where
  | ret (ip : Option String)
  | raised (msg : String)
  | outOfScript
deriving DecidableEq

/-- A `get_cisco_ip_address` run: outcome, unconsumed script, final clock. -/
structure GetIpRun where
  outcome : GetIpOutcome
  rest : List RawRead
  finalClock : Nat
deriving DecidableEq

/-- `NodeSession.get_cisco_ip_address` (lines 131-145): send the show
command, `time.sleep(2)`, `wait("[\$#]", debug)` with the default
`timeout=1`, then the regex extraction.  Exceptions from `wait` (deadline,
EOF) propagate. -/
def get_cisco_ip_address (M : String → String → Bool) (sessionName : String)
    (maxtime : Nat) (script : List RawRead) (clock : Nat) : GetIpRun :=
  let w := wait M sessionName "[\\$#]" "Get IP address" 1 maxtime script (clock + 2)
  match w.outcome with
  | WaitOutcome.matched output =>
    { outcome := GetIpOutcome.ret (cisco_ip_of_output output),
      rest := w.rest, finalClock := w.finalClock }
  | WaitOutcome.timedOutErr msg =>
    { outcome := GetIpOutcome.raised msg, rest := w.rest, finalClock := w.finalClock }
  | WaitOutcome.eofErr msg =>
    { outcome := GetIpOutcome.raised msg, rest := w.rest, finalClock := w.finalClock }
  | WaitOutcome.outOfScript =>
    { outcome := GetIpOutcome.outOfScript, rest := w.rest, finalClock := w.finalClock }

/-- Outcome of a `must_get_cisco_ip_address` run. -/
inductive MustGetOutcome where
  | ipFound (ip : String)
  | raised (msg : String)
  | fatalErr (msg : String)
  | outOfScript
  | outOfFuel
deriving DecidableEq

/-- A `must_get_cisco_ip_address` run. -/
structure MustGetRun where
  outcome : MustGetOutcome
  finalClock : Nat
deriving DecidableEq

/-- Loop of `NodeSession.must_get_cisco_ip_address` (lines 150-158): while
`time.time() - time_started < self.node.maxtime`, probe once; return the
first non-`None` address; once the budget has elapsed, `self.fatal` raises
`Exception("%s: %s" % (self.name, "Failed to get IP address for %s" % nic))`.
`fuel` bounds the number of attempts so the model is total; the claims are
settled on runs that do not run out of fuel. -/
def must_get_cisco_ip_address_go (M : String → String → Bool)
    (sessionName nic : String) (maxtime : Nat) :
    Nat → List RawRead → Nat → Nat → MustGetRun
  | 0, _, clock, _ => { outcome := MustGetOutcome.outOfFuel, finalClock := clock }
  | fuel + 1, script, clock, time_started =>
    if clock - time_started < maxtime then
      let g := get_cisco_ip_address M sessionName maxtime script clock
      match g.outcome with
      | GetIpOutcome.ret (some ip) =>
        { outcome := MustGetOutcome.ipFound ip, finalClock := g.finalClock }
      | GetIpOutcome.ret none =>
        must_get_cisco_ip_address_go M sessionName nic maxtime fuel
          g.rest g.finalClock time_started
      | GetIpOutcome.raised msg =>
        { outcome := MustGetOutcome.raised msg, finalClock := g.finalClock }
      | GetIpOutcome.outOfScript =>
        { outcome := MustGetOutcome.outOfScript, finalClock := g.finalClock }
    else
      { outcome := MustGetOutcome.fatalErr
          (sessionName ++ ": Failed to get IP address for " ++ nic),
        finalClock := clock }

/-- `NodeSession.must_get_cisco_ip_address`: `time_started = time.time()`
at entry (line 152). -/
def must_get_cisco_ip_address (M : String → String → Bool)
    (sessionName nic : String) (maxtime fuel : Nat)
    (script : List RawRead) (clock : Nat) : MustGetRun :=
  must_get_cisco_ip_address_go M sessionName nic maxtime fuel script clock clock

/-- If a `wait` run matches, the matched text is a single transport
increment (or the empty string of a timed-out read): the pattern is never
tested against a concatenation of increments. -/
theorem wait_go_matched_single (M : String → String → Bool)
    (sn wt dbg : String) (tmo mt ts : Nat) :
    ∀ (script : List RawRead) (clock tpe : Nat) (d : String),
      (wait_go M sn wt dbg tmo mt ts script clock tpe).outcome
        = WaitOutcome.matched d →
      M wt d = true ∧ (RawRead.bytes d ∈ script ∨ d = "") := by
  intro script
  induction script with
  | nil =>
    intro clock tpe d h
    simp only [wait_go] at h
    split at h <;> simp_all
  | cons r rest ih =>
    intro clock tpe d h
    simp only [wait_go] at h
    split at h
    · cases r with
      | eof => simp [read_data] at h
      | bytes s =>
        simp only [read_data] at h
        by_cases hm : M wt s = true
        · rw [if_pos hm] at h
          simp only [WaitOutcome.matched.injEq] at h
          subst h
          exact ⟨hm, Or.inl (List.mem_cons_self _ _)⟩
        · rw [if_neg hm] at h
          split at h
          · simp only at h
            rcases ih _ _ _ h with ⟨h1, h2⟩
            exact ⟨h1, h2.imp (List.mem_cons_of_mem _) id⟩
          · rcases ih _ _ _ h with ⟨h1, h2⟩
            exact ⟨h1, h2.imp (List.mem_cons_of_mem _) id⟩
      | timedOut =>
        simp only [read_data] at h
        by_cases hm : M wt "" = true
        · rw [if_pos hm] at h
          simp only [WaitOutcome.matched.injEq] at h
          subst h
          exact ⟨hm, Or.inr rfl⟩
        · rw [if_neg hm] at h
          split at h
          · simp only at h
            rcases ih _ _ _ h with ⟨h1, h2⟩
            exact ⟨h1, h2.imp (List.mem_cons_of_mem _) id⟩
          · rcases ih _ _ _ h with ⟨h1, h2⟩
            exact ⟨h1, h2.imp (List.mem_cons_of_mem _) id⟩
    · simp_all

/-- C1, counterexample: a transport that delivers `"a"` then `"b"` as
separate increments.  The concatenation matches the pattern `"ab"`, yet
`wait` (at `timeout=600`, `maxtime=1800`) never matches and raises its
deadline exception. -/
theorem claim1_counterexample :
    (wait containsStr "s" "ab" "d" 600 1800
        [RawRead.bytes "a", RawRead.bytes "b", RawRead.timedOut] 0).outcome
      = WaitOutcome.timedOutErr "s timed out (d) trying to match ab"
    ∧ containsStr "ab" ("a" ++ "b") = true := by
  exact ⟨by decide, by decide⟩

/-- C1 (corrected): `Node.wait` applies the pattern test only to the newest
increment returned by `read_data`; there is no accumulated buffer.  Whenever
a run matches, the matched text is one single increment of the script (or
the empty result of a timed-out read) that satisfies the pattern on its
own. -/
theorem claim1_wait_matches_single_increment_only
    (M : String → String → Bool) (sn wt dbg : String) (tmo mt : Nat)
    (script : List RawRead) (c0 : Nat) (d : String)
    (h : (wait M sn wt dbg tmo mt script c0).outcome = WaitOutcome.matched d) :
    M wt d = true ∧ (RawRead.bytes d ∈ script ∨ d = "") :=
  wait_go_matched_single M sn wt dbg tmo mt c0 script c0 c0 d h

/-- C1, witness: a single-increment match, fed through the theorem. -/
theorem claim1_witness :
    containsStr "ios#" "RP:ios#" = true
    ∧ (RawRead.bytes "RP:ios#" ∈ [RawRead.bytes "RP:ios#"] ∨ "RP:ios#" = "") :=
  claim1_wait_matches_single_increment_only containsStr "s" "ios#" "d" 1 20
    [RawRead.bytes "RP:ios#"] 0 "RP:ios#" (by decide)

/-- Each `wait` loop is individually bounded: starting from a clock within
the budget, the final clock never exceeds
`time_started + maxtime + timeout`. -/
theorem wait_go_finalClock_le (M : String → String → Bool)
    (sn wt dbg : String) (tmo mt ts : Nat) :
    ∀ (script : List RawRead) (clock tpe : Nat),
      clock ≤ ts + mt + tmo →
      (wait_go M sn wt dbg tmo mt ts script clock tpe).finalClock
        ≤ ts + mt + tmo := by
  intro script
  induction script with
  | nil =>
    intro clock tpe h
    simp only [wait_go]
    split <;> simpa
  | cons r rest ih =>
    intro clock tpe h
    simp only [wait_go]
    split
    · rename_i hlt
      cases r with
      | eof => simp only [read_data]; omega
      | bytes s =>
        simp only [read_data]
        split
        · simp only; omega
        · split
          · simp only
            exact ih _ _ (by omega)
          · exact ih _ _ (by omega)
      | timedOut =>
        simp only [read_data]
        split
        · simp only; omega
        · split
          · simp only
            exact ih _ _ (by omega)
          · exact ih _ _ (by omega)
    · simpa

/-- Same bound for the `repeat_until` loop. -/
theorem repeat_until_go_finalClock_le (M : String → String → Bool)
    (sn stx mtx dbg : String) (tmo mt ts : Nat) :
    ∀ (script : List RawRead) (clock cnt : Nat),
      clock ≤ ts + mt + tmo →
      (repeat_until_go M sn stx mtx dbg tmo mt ts script clock cnt).finalClock
        ≤ ts + mt + tmo := by
  intro script
  induction script with
  | nil =>
    intro clock cnt h
    simp only [repeat_until_go]
    split <;> simpa
  | cons r rest ih =>
    intro clock cnt h
    simp only [repeat_until_go]
    split
    · rename_i hlt
      cases r with
      | eof => simp only [read_data]; omega
      | bytes s =>
        simp only [read_data]
        split
        · simp only; omega
        · exact ih _ _ (by omega)
      | timedOut =>
        simp only [read_data]
        split
        · simp only; omega
        · exact ih _ _ (by omega)
    · simpa

/-- C2, counterexample: two consecutive `wait` calls on the same transport
(`maxtime = 1800`, `timeout = 600`).  Each call records its own fresh start
time, so each gets a full 1800-second budget: the first finishes at clock
1800, the second — resumed on the remaining script — at clock 3600.  The
chain spends 3600 seconds, twice the node's budget, and no deadline error is
raised. -/
theorem claim2_counterexample :
    wait containsStr "s" "ios#" "d" 600 1800
        [RawRead.timedOut, RawRead.timedOut, RawRead.bytes "ios#",
         RawRead.timedOut, RawRead.timedOut, RawRead.bytes "ios#"] 0
      = { outcome := WaitOutcome.matched "ios#", nudges := [600, 1200],
          rest := [RawRead.timedOut, RawRead.timedOut, RawRead.bytes "ios#"],
          finalClock := 1800 }
    ∧ wait containsStr "s" "ios#" "d" 600 1800
        [RawRead.timedOut, RawRead.timedOut, RawRead.bytes "ios#"] 1800
      = { outcome := WaitOutcome.matched "ios#", nudges := [2400, 3000],
          rest := [], finalClock := 3600 }
    ∧ 1800 < 3600 - 0 := by
  exact ⟨by decide, by decide, by decide⟩

/-- C2 (corrected): every `wait` and `repeat_until` call records a fresh
`time_started` at its own entry, so each individual call is bounded by
`maxtime` plus one read slice — but the bound is per call, not shared along
a chain. -/
theorem claim2_per_call_budget :
    (∀ (M : String → String → Bool) (sn wt dbg : String)
        (tmo mt : Nat) (script : List RawRead) (c0 : Nat),
        (wait M sn wt dbg tmo mt script c0).finalClock ≤ c0 + mt + tmo)
    ∧ (∀ (M : String → String → Bool) (sn stx mtx dbg : String)
        (tmo mt : Nat) (script : List RawRead) (c0 : Nat),
        (repeat_until M sn stx mtx dbg tmo mt script c0).finalClock
          ≤ c0 + mt + tmo) := by
  constructor
  · intro M sn wt dbg tmo mt script c0
    exact wait_go_finalClock_le M sn wt dbg tmo mt c0 script c0 c0 (by omega)
  · intro M sn stx mtx dbg tmo mt script c0
    exact repeat_until_go_finalClock_le M sn stx mtx dbg tmo mt c0 script c0 0
      (by omega)

/-- C3 (confirmed): driven by the scripted transport that emits banner,
root-system username prompt, secret prompt, secret-confirmation prompt and
then the shell prompt `RP/0/RP0/CPU0:ios#`, `wait_xr_login` authenticates
having sent exactly four lines: one empty line, the username once, and the
password twice — for any username and password. -/
theorem claim3_login_scenario (sn u p : String) :
    wait_xr_login sn u p 1800 loginScript 100
      = { outcome := LoginOutcome.success, sends := ["", u, p, p],
          rest := [], finalClock := 125 } := by
  rfl

/-- C4 (confirmed): a `Username:` prompt observed while
`time_seen_username_prompt` is set and less than 5 seconds old (the prompt
answered with the username at that recorded time) is acknowledged with a
single empty line: the username is not re-sent, and the recorded time is
left unchanged, so the username was sent exactly once for the pair. -/
theorem claim4_repeated_username_acknowledged (sn u p : String) (st : LoginSt)
    (h1 : st.time_seen_username_prompt ≠ 0)
    (h2 : st.clock + 5 - st.time_seen_username_prompt < 5) :
    login_step sn u p (RawRead.bytes "Username:") st
      = LoginStep.next
          { clock := st.clock + 5, time_started := st.time_started,
            time_pressed_enter := st.clock + 5,
            time_seen_username_prompt := st.time_seen_username_prompt,
            sendsRev := "" :: st.sendsRev } := by
  obtain ⟨cl, ts, tpe, tsup, sends⟩ := st
  simp only at h1 h2
  have e0 : lastNonEmptyLine "Username:" = "Username:" := by decide
  have rne : ("Username:" != "") = true := by decide
  have r1 : research patPressReturn "Username:" = false := by decide
  have r2 : research patRootUsername "Username:" = false := by decide
  have r3 : research patEnterSecret "Username:" = false := by decide
  have r4 : research patEnterSecretAgain "Username:" = false := by decide
  have r5 : research patUsername "Username:" = true := by decide
  have r6 : research patPassword "Username:" = false := by decide
  have r7 : research patConfMode "Username:" = false := by decide
  have r8 : research patUncommitted "Username:" = false := by decide
  have r9 : research patIosPrompt "Username:" = false := by decide
  have r10 : research patRpCpuPrompt "Username:" = false := by decide
  simp only [login_step, read_data]
  rw [e0]
  simp [login_tail, rne, r1, r2, r3, r4, r5, r6, r7, r8, r9, r10, h1, h2]

/-- C4, witness: a state whose `Username:` prompt was answered 3 seconds
before this read completes. -/
theorem claim4_witness :
    ((4 : Nat) ≠ 0 ∧ (2 : Nat) + 5 - 4 < 5)
    ∧ login_step "s" "vagrant" "pw" (RawRead.bytes "Username:")
        { clock := 2, time_started := 0, time_pressed_enter := 0,
          time_seen_username_prompt := 4, sendsRev := [] }
      = LoginStep.next
          { clock := 7, time_started := 0, time_pressed_enter := 7,
            time_seen_username_prompt := 4, sendsRev := [""] } :=
  ⟨⟨by decide, by decide⟩,
   claim4_repeated_username_acknowledged "s" "vagrant" "pw"
     { clock := 2, time_started := 0, time_pressed_enter := 0,
       time_seen_username_prompt := 4, sendsRev := [] }
     (by decide) (by decide)⟩

/-- C7 (confirmed): an iteration of the login state machine depends on a
chunk of newly read output only through its last non-empty line — and, on
the concrete chunk `"Press RETURN to get started.\nUsername:"`, the stale
banner on the earlier line does not fire: the machine answers the
`Username:` prompt of the last line (sending the username, not the banner's
empty line). -/
theorem claim7_last_line_only :
    (∀ (sn u p c1 c2 : String) (st : LoginSt),
        lastNonEmptyLine c1 = lastNonEmptyLine c2 →
        login_step sn u p (RawRead.bytes c1) st
          = login_step sn u p (RawRead.bytes c2) st)
    ∧ login_step "s" "vagrant" "secret"
        (RawRead.bytes "Press RETURN to get started.\nUsername:")
        { clock := 100, time_started := 100, time_pressed_enter := 0,
          time_seen_username_prompt := 0, sendsRev := [] }
      = LoginStep.next
          { clock := 106, time_started := 100, time_pressed_enter := 105,
            time_seen_username_prompt := 105, sendsRev := ["vagrant"] } := by
  constructor
  · intro sn u p c1 c2 st h
    simp only [login_step, read_data]
    rw [h]
  · rfl

/-- C7, witness: two chunks with the same last non-empty line are handled
identically. -/
theorem claim7_witness :
    lastNonEmptyLine "garbage\nUsername:" = lastNonEmptyLine "Username:"
    ∧ login_step "s" "a" "b" (RawRead.bytes "garbage\nUsername:")
        { clock := 0, time_started := 0, time_pressed_enter := 0,
          time_seen_username_prompt := 0, sendsRev := [] }
      = login_step "s" "a" "b" (RawRead.bytes "Username:")
        { clock := 0, time_started := 0, time_pressed_enter := 0,
          time_seen_username_prompt := 0, sendsRev := [] } :=
  ⟨by decide,
   claim7_last_line_only.1 "s" "a" "b" "garbage\nUsername:" "Username:"
     { clock := 0, time_started := 0, time_pressed_enter := 0,
       time_seen_username_prompt := 0, sendsRev := [] } (by decide)⟩

/-- C5 (confirmed): `read_data` blocks for at most the timeout (it sleeps
exactly `timeout` before the non-blocking read); available bytes are
returned as they are; a `pexpect.TIMEOUT` (no bytes) yields the empty
result; and the EOF error — a distinct condition, not an empty result — is
raised exactly when the transport signals end-of-stream. -/
theorem claim5_read_data_contract (sessionName debug : String)
    (timeout clock : Nat) :
    (∀ r, (read_data sessionName debug timeout clock r).1 - clock ≤ timeout)
    ∧ (∀ s, read_data sessionName debug timeout clock (RawRead.bytes s)
        = (clock + timeout, ReadResult.data s))
    ∧ read_data sessionName debug timeout clock RawRead.timedOut
        = (clock + timeout, ReadResult.data "")
    ∧ (∀ r, (∃ msg, (read_data sessionName debug timeout clock r).2
        = ReadResult.eofErr msg) ↔ r = RawRead.eof) := by
  refine ⟨?_, fun s => rfl, rfl, ?_⟩
  · intro r
    cases r <;> simp [read_data]
  · intro r
    cases r <;> simp [read_data]

/-- C5, witness: the EOF direction of the iff at a concrete input. -/
theorem claim5_witness :
    ∃ msg, (read_data "s" "d" 1 0 RawRead.eof).2 = ReadResult.eofErr msg :=
  ((claim5_read_data_contract "s" "d" 1 0).2.2.2 RawRead.eof).mpr rfl

/-- C6 (code bug): with `maxtime = 1800` and 600-second read slices, a
transport that emits the pattern `"READY"` only on the third read makes
`repeat_until` succeed after exactly 3 sends; a transport that never emits
it makes `repeat_until` raise after its 3 sends — but the raised message
formats the probe (`send_txt`) after the words `trying to match` and does
not contain the pattern at all, whereas `Node.wait` fills the same template
with the awaited pattern. -/
theorem claim6_retry_error_payload :
    repeat_until containsStr "sess" "PROBE" "READY" "dbg" 600 1800
        [RawRead.timedOut, RawRead.timedOut, RawRead.bytes "READY now"] 0
      = { outcome := RepeatOutcome.matched "READY now", sendCount := 3,
          rest := [], finalClock := 1800 }
    ∧ repeat_until containsStr "sess" "PROBE" "READY" "dbg" 600 1800
        [RawRead.timedOut, RawRead.timedOut, RawRead.timedOut] 0
      = { outcome := RepeatOutcome.timedOutErr
            "sess timed out (dbg) trying to match PROBE",
          sendCount := 3, rest := [], finalClock := 1800 }
    ∧ containsStr "PROBE" "sess timed out (dbg) trying to match PROBE" = true
    ∧ containsStr "READY" "sess timed out (dbg) trying to match PROBE" = false
    ∧ (wait containsStr "sess" "READY" "dbg" 600 1800
        [RawRead.timedOut, RawRead.timedOut, RawRead.timedOut] 0).outcome
      = WaitOutcome.timedOutErr "sess timed out (dbg) trying to match READY" := by
  exact ⟨by decide, by decide, by decide, by decide, by decide⟩

/-- C8, counterexample: `Node.close` walks `self.sessions` looking up
`self.ttys[index]` first, and `ttys` has only four entries — a node owning
five sessions (five `-cmds` transports) raises `IndexError` and leaves the
fifth session unclosed. -/
theorem claim8_counterexample :
    (node_close (List.replicate 5 { closed := false, closeCalls := 0 })).err
      = some "IndexError: list index out of range"
    ∧ (node_close (List.replicate 5 { closed := false, closeCalls := 0 })).sessions.getLast?
      = some { closed := false, closeCalls := 0 } := by
  exact ⟨by decide, by decide⟩

/-- The `Node.close` loop succeeds on any session list that does not outrun
`ttys`, closing each session exactly once. -/
theorem node_close_go_ok :
    ∀ (ss : List MSession) (idx : Nat) (acc : List MSession),
      idx + ss.length ≤ ttys.length →
      node_close_go ss idx acc
        = { err := none, sessions := acc.reverse ++ ss.map pexpect_close } := by
  intro ss
  induction ss with
  | nil =>
    intro idx acc h
    simp [node_close_go]
  | cons s rest ih =>
    intro idx acc h
    simp only [node_close_go]
    rw [if_pos (by simp only [List.length_cons] at h; omega)]
    rw [ih (idx + 1) (pexpect_close s :: acc)
      (by simp only [List.length_cons] at h; omega)]
    simp

/-- C8 (corrected): for every node owning at most four sessions (one per
entry of `ttys`), `Node.close` raises nothing and closes every owned
session exactly once — each session's transport receives exactly one
additional `close(force=True)` call — including sessions whose transport
was already closed beforehand (`pexpect.spawn.close` is an error-free no-op
then). -/
theorem claim8_close_bounded_sessions (ss : List MSession)
    (h : ss.length ≤ 4) :
    node_close ss = { err := none, sessions := ss.map pexpect_close } := by
  have := node_close_go_ok ss 0 [] (by simpa [ttys] using h)
  simpa [node_close] using this

/-- C8, witness: a two-session node whose first transport was already
closed individually; `close` succeeds, closing each exactly once. -/
theorem claim8_witness :
    ([{ closed := true, closeCalls := 1 }, { closed := false, closeCalls := 0 }]
        : List MSession).length ≤ 4
    ∧ node_close
        [{ closed := true, closeCalls := 1 }, { closed := false, closeCalls := 0 }]
      = { err := none,
          sessions := [{ closed := true, closeCalls := 2 },
                       { closed := true, closeCalls := 1 }] } :=
  ⟨by decide,
   claim8_close_bounded_sessions
     [{ closed := true, closeCalls := 1 }, { closed := false, closeCalls := 0 }]
     (by decide)⟩

/-- Along any `wait` loop, prefixing the start of the quiet interval, the
recorded nudge instants are spaced more than 10 seconds apart. -/
theorem wait_go_nudges_chain (M : String → String → Bool)
    (sn wt dbg : String) (tmo mt ts : Nat) :
    ∀ (script : List RawRead) (clock tpe : Nat),
      List.Chain' (fun a b => 10 < b - a)
        (tpe :: (wait_go M sn wt dbg tmo mt ts script clock tpe).nudges) := by
  intro script
  induction script with
  | nil =>
    intro clock tpe
    simp only [wait_go]
    split <;> simp
  | cons r rest ih =>
    intro clock tpe
    simp only [wait_go]
    split
    · cases r with
      | eof => simp [read_data]
      | bytes s =>
        simp only [read_data]
        split
        · simp
        · split
          · rename_i hn
            simp only [List.chain'_cons]
            exact ⟨hn, ih _ _⟩
          · exact ih _ _
      | timedOut =>
        simp only [read_data]
        split
        · simp
        · split
          · rename_i hn
            simp only [List.chain'_cons]
            exact ⟨hn, ih _ _⟩
          · exact ih _ _
    · simp

/-- C9 (confirmed): in the `wait` loop, (a) an iteration whose read finds no
match and completes more than 10 seconds after `time_pressed_enter` sends
the empty-line nudge there and then — the nudge instant is recorded and the
quiet-interval clock resets; and (b) over any complete run, successive
nudges (counting from the start of the wait) are always more than 10
seconds apart — never more than one nudge per quiet interval. -/
theorem claim9_nudge_discipline :
    (∀ (M : String → String → Bool) (sn wt dbg : String) (tmo mt ts : Nat)
        (rest : List RawRead) (chunk : String) (clock tpe : Nat),
        clock - ts < mt → M wt chunk = false → clock + tmo - tpe > 10 →
        (wait_go M sn wt dbg tmo mt ts (RawRead.bytes chunk :: rest) clock tpe).nudges
          = (clock + tmo)
              :: (wait_go M sn wt dbg tmo mt ts rest (clock + tmo) (clock + tmo)).nudges)
    ∧ (∀ (M : String → String → Bool) (sn wt dbg : String) (tmo mt : Nat)
        (script : List RawRead) (c0 : Nat),
        List.Chain' (fun a b => 10 < b - a)
          (c0 :: (wait M sn wt dbg tmo mt script c0).nudges)) := by
  constructor
  · intro M sn wt dbg tmo mt ts rest chunk clock tpe h1 h2 h3
    simp only [wait_go, read_data]
    rw [if_pos h1, if_neg (by simp [h2]), if_pos h3]
  · intro M sn wt dbg tmo mt script c0
    exact wait_go_nudges_chain M sn wt dbg tmo mt c0 script c0 c0

/-- C9, witness: a quiet 600-second read slice triggers exactly one nudge,
and a concrete run's nudge instants satisfy the spacing discipline. -/
theorem claim9_witness :
    (wait_go containsStr "s" "ios#" "d" 600 1800 0 [RawRead.bytes "x"] 0 0).nudges
      = 600 :: (wait_go containsStr "s" "ios#" "d" 600 1800 0 [] 600 600).nudges
    ∧ List.Chain' (fun a b => 10 < b - a)
        (0 :: (wait containsStr "s" "ios#" "d" 600 1800 [RawRead.timedOut] 0).nudges) :=
  ⟨claim9_nudge_discipline.1 containsStr "s" "ios#" "d" 600 1800 0 [] "x" 0 0
     (by decide) (by decide) (by decide),
   claim9_nudge_discipline.2 containsStr "s" "ios#" "d" 600 1800
     [RawRead.timedOut] 0⟩

/-- A scan of `findIA` skips any prefix free of the character `I` (no
occurrence of the literal can start there). -/
theorem findIA_skip :
    ∀ (pre suf : List Char), 'I' ∉ pre →
      findIA (pre ++ suf) = findIA suf := by
  intro pre
  induction pre with
  | nil => intro suf _; simp
  | cons c pre' ih =>
    intro suf h
    have hc : c ≠ 'I' := fun hh => h (hh ▸ List.mem_cons_self c pre')
    have h' : 'I' ∉ pre' := fun hh => h (List.mem_cons_of_mem c hh)
    simp only [List.cons_append, findIA, List.append_eq]
    have hb : iaLiteral.isPrefixOf (c :: (pre' ++ suf)) = false := by
      by_cases hp : iaLiteral.isPrefixOf (c :: (pre' ++ suf)) = true
      · exfalso
        rcases List.isPrefixOf_iff_prefix.mp hp with ⟨t, ht⟩
        have ht' : 'I' :: ("nternet address is ".toList ++ t)
            = c :: (pre' ++ suf) := ht
        injection ht' with h1 _
        exact hc h1.symm
      · exact Bool.eq_false_iff.mpr hp
    rw [hb]
    simp only [Bool.false_eq_true, if_false]
    exact ih suf h'

/-- `slashSplitAux` finds nothing in a slash-free run. -/
theorem slashSplitAux_of_not_mem :
    ∀ (l : List Char), '/' ∉ l → slashSplitAux l = none := by
  intro l
  induction l with
  | nil => intro _; rfl
  | cons c cs ih =>
    intro h
    have hc : c ≠ '/' := fun hh => h (hh ▸ List.mem_cons_self c cs)
    have h' : '/' ∉ cs := fun hh => h (List.mem_cons_of_mem c hh)
    simp only [slashSplitAux, ih h']
    simp [hc]

/-- `slashSplitAux` on `a ++ '/' :: b` with slash-free `a` and `b` and
nonempty `b` returns `a`: the rightmost `/` with a nonempty tail. -/
theorem slashSplitAux_append :
    ∀ (a b : List Char), '/' ∉ a → '/' ∉ b → b ≠ [] →
      slashSplitAux (a ++ '/' :: b) = some a := by
  intro a
  induction a with
  | nil =>
    intro b _ hb hne
    simp only [List.nil_append, slashSplitAux, slashSplitAux_of_not_mem b hb]
    simp [List.isEmpty_iff, hne]
  | cons c a' ih =>
    intro b ha hb hne
    have h' : '/' ∉ a' := fun hh => ha (List.mem_cons_of_mem c hh)
    simp only [List.cons_append, slashSplitAux, List.append_eq, ih b h' hb hne]

/-- `takeWhile` passes over a block whose elements all satisfy the
predicate. -/
theorem takeWhile_append_all (p : Char → Bool) :
    ∀ (l l' : List Char), (∀ c ∈ l, p c = true) →
      List.takeWhile p (l ++ l') = l ++ List.takeWhile p l' := by
  intro l
  induction l with
  | nil => intro l' _; simp
  | cons c cs ih =>
    intro l' h
    have hc : p c = true := h c (List.mem_cons_self c cs)
    simp only [List.cons_append, List.takeWhile_cons, hc, if_true]
    rw [ih l' (fun x hx => h x (List.mem_cons_of_mem c hx))]

/-- The maximal non-space run after the literal of an
`Internet address is <addr>/<len> ...` occurrence is `addr ++ '/' :: len`. -/
theorem takeWhile_run (addr len rest : List Char)
    (ha : ∀ c ∈ addr, pyIsSpace c = false)
    (hl : ∀ c ∈ len, pyIsSpace c = false) :
    List.takeWhile (fun ch => !pyIsSpace ch)
        (addr ++ ('/' :: (len ++ (' ' :: rest)))) = addr ++ ('/' :: len) := by
  have ha' : ∀ c ∈ addr, (fun ch => !pyIsSpace ch) c = true := by
    intro c hc
    simp [ha c hc]
  have hl' : ∀ c ∈ len, (fun ch => !pyIsSpace ch) c = true := by
    intro c hc
    simp [hl c hc]
  rw [takeWhile_append_all (fun ch => !pyIsSpace ch) addr
    ('/' :: (len ++ (' ' :: rest))) ha']
  have h1 : List.takeWhile (fun ch => !pyIsSpace ch) ('/' :: (len ++ (' ' :: rest)))
      = '/' :: List.takeWhile (fun ch => !pyIsSpace ch) (len ++ (' ' :: rest)) := by
    simp [List.takeWhile_cons, pyIsSpace]
  rw [h1, takeWhile_append_all (fun ch => !pyIsSpace ch) len (' ' :: rest) hl']
  have h2 : List.takeWhile (fun ch => !pyIsSpace ch) (' ' :: rest) = [] := by
    simp [List.takeWhile_cons, pyIsSpace]
  rw [h2, List.append_nil]

/-- `slashSplit` of `<addr>/<len>` with slash-free nonempty components is
`addr`. -/
theorem slashSplit_append (addr len : List Char)
    (h1 : '/' ∉ addr) (h2 : '/' ∉ len) (h3 : len ≠ []) (h4 : addr ≠ []) :
    slashSplit (addr ++ ('/' :: len)) = some addr := by
  simp only [slashSplit, slashSplitAux_append addr len h1 h2 h3]
  simp [List.isEmpty_iff, h4]

/-- One unfolding of the `findIA` scan at a nonempty subject. -/
theorem findIA_cons (c : Char) (cs : List Char) :
    findIA (c :: cs)
      = if iaLiteral.isPrefixOf (c :: cs) then
          match slashSplit (((c :: cs).drop iaLiteral.length).takeWhile
              (fun ch => !pyIsSpace ch)) with
          | some a => some (String.mk a)
          | none => findIA cs
        else findIA cs := rfl

/-- `findIA` at a position where the literal matches and the following run
splits: the captured group is returned. -/
theorem findIA_append_literal (X a : List Char)
    (hs : slashSplit (List.takeWhile (fun ch => !pyIsSpace ch) X) = some a) :
    findIA (iaLiteral ++ X) = some (String.mk a) := by
  show findIA ('I' :: ("nternet address is ".toList ++ X)) = some (String.mk a)
  have hpre : iaLiteral.isPrefixOf
      ('I' :: ("nternet address is ".toList ++ X)) = true :=
    List.isPrefixOf_iff_prefix.mpr ⟨X, rfl⟩
  rw [findIA_cons, if_pos hpre]
  have hd : List.drop iaLiteral.length
      ('I' :: ("nternet address is ".toList ++ X)) = X :=
    List.drop_left iaLiteral X
  rw [hd, hs]

/-- C10 (confirmed): (a) the extraction of `get_cisco_ip_address` returns
the address captured before the `/` of the first
`Internet address is <addr>/<len>` occurrence of the awaited output —
whatever follows, including further occurrences; (b) when the output has no
such occurrence the extraction returns `None`, without raising; and (c)
`must_get_cisco_ip_address` raises its fatal error only once the node's
`maxtime` budget has elapsed since the probe loop started. -/
theorem claim10_ip_probe :
    (∀ (pre addr len rest : List Char),
        'I' ∉ pre → len ≠ [] → addr ≠ [] →
        (∀ c ∈ addr, pyIsSpace c = false ∧ c ≠ '/') →
        (∀ c ∈ len, pyIsSpace c = false ∧ c ≠ '/') →
        cisco_ip_of_output (String.mk
            (pre ++ (iaLiteral ++ (addr ++ ('/' :: (len ++ (' ' :: rest)))))))
          = some (String.mk addr))
    ∧ (∀ s : List Char, 'I' ∉ s →
        cisco_ip_of_output (String.mk s) = none)
    ∧ (∀ (M : String → String → Bool) (sn nic : String)
        (mt fuel : Nat) (script : List RawRead) (clock ts : Nat)
        (msg : String) (fc : Nat),
        must_get_cisco_ip_address_go M sn nic mt fuel script clock ts
          = { outcome := MustGetOutcome.fatalErr msg, finalClock := fc } →
        mt ≤ fc - ts) := by
  refine ⟨?_, ?_, ?_⟩
  · intro pre addr len rest h1 h3 h2 h4 h5
    have ha : ∀ c ∈ addr, pyIsSpace c = false := fun c hc => (h4 c hc).1
    have ha2 : '/' ∉ addr := fun hc => (h4 '/' hc).2 rfl
    have hl : ∀ c ∈ len, pyIsSpace c = false := fun c hc => (h5 c hc).1
    have hl2 : '/' ∉ len := fun hc => (h5 '/' hc).2 rfl
    show findIA
        (pre ++ (iaLiteral ++ (addr ++ ('/' :: (len ++ (' ' :: rest))))))
      = some (String.mk addr)
    rw [findIA_skip pre _ h1]
    refine findIA_append_literal _ addr ?_
    rw [takeWhile_run addr len rest ha hl]
    exact slashSplit_append addr len ha2 hl2 h3 h2
  · intro s h
    show findIA s = none
    have := findIA_skip s [] h
    simpa using this
  · intro M sn nic mt fuel
    induction fuel with
    | zero =>
      intro script clock ts msg fc h
      simp [must_get_cisco_ip_address_go] at h
    | succ n ih =>
      intro script clock ts msg fc h
      simp only [must_get_cisco_ip_address_go] at h
      split at h
      · split at h
        · simp at h
        · exact ih _ _ _ _ _ h
        · simp at h
        · simp at h
      · rename_i hc
        have h2 := congrArg MustGetRun.finalClock h
        simp only at h2
        omega

/-- C10, witness: a concrete extraction, a concrete `None` output, and a
concrete probe loop that raises the fatal error only once 6 of the
5-second budget have elapsed. -/
theorem claim10_witness :
    cisco_ip_of_output (String.mk ("x: ".toList ++ (iaLiteral
        ++ ("10.0.2.15".toList ++ ('/' :: ("24".toList ++ (' ' :: "more".toList)))))))
      = some (String.mk "10.0.2.15".toList)
    ∧ cisco_ip_of_output (String.mk "no address".toList) = none
    ∧ (5 : Nat) ≤ 16 - 10 :=
  ⟨claim10_ip_probe.1 "x: ".toList "10.0.2.15".toList "24".toList "more".toList
     (by decide) (by decide) (by decide) (by decide) (by decide),
   claim10_ip_probe.2.1 "no address".toList (by decide),
   claim10_ip_probe.2.2 containsStr "sess" "nic0" 5 3
     [RawRead.bytes "a[\\$#]", RawRead.bytes "b[\\$#]"] 10 10
     "sess: Failed to get IP address for nic0" 16 (by decide)⟩
